import Mathlib

/-!
Verification model of the dude-claude-plugin record store (`src/db.js`).

The SQLite database is modelled as explicit lists: the `project` table, the
`record` table, and the `record_embedding` vec0 virtual table (a list of
`(record_id, vector)` pairs).  The module-level `currentProject` cache is
carried as the `cur_id`/`cur_name` fields of the state.

Numeric scores (cosine distances, similarities, thresholds) are modelled over
`ℚ`, idealising JavaScript float arithmetic; the cosine-distance metric itself
is computed by the external sqlite-vec library, so it enters the model as a
function parameter `dist : Emb → Emb → ℚ` (applied as `dist query stored`).

A vec0 KNN query `WHERE embedding MATCH ? AND k = n` returns the `n` nearest
entries of the whole virtual table, ordered by ascending distance; conditions
on *joined* tables (`record.project_id`, `record.kind`) are applied by SQLite
after the virtual table has produced its `n` rows, because vec0's xBestIndex
can only consume constraints on its own columns.  `knn` below models exactly
that: global top-`k`, then the join filters.  Ties in distance are resolved by
table order (a stable sort), matching the deterministic behaviour of the model;
all concrete inputs used in theorems below avoid ties at decision points, so
no conclusion depends on tie-breaking.

JavaScript truthiness tests (`if (id)`, `if (!project)`, `kind && ...`) are
modelled explicitly by `jsTruthyNat` / `jsFalsyStr` / `activeFilter`.
-/

attribute [local semireducible] Rat.add Rat.sub Rat.mul Rat.inv

namespace DudeDb

/-- An embedding vector (FLOAT[384] in the schema; the dimension plays no role
in the store logic, so vectors are plain rational lists). -/
abbrev Emb := List ℚ

/-- A row of the `project` table. -/
structure Project where
  id : Nat
  name : String
  created_at : String
  updated_at : String
deriving DecidableEq

/-- A row of the `record` table. -/
structure Record where
  id : Nat
  project_id : Nat
  kind : String
  title : String
  body : String
  status : String
  created_at : String
  updated_at : String
deriving DecidableEq

/-- The database state: the three tables plus the process-lifetime
`currentProject` cache (`id` and `name`). -/
structure Db where
  projects : List Project
  records : List Record
  embeddings : List (Nat × Emb)
  cur_id : Nat
  cur_name : String
deriving DecidableEq

/-- JavaScript truthiness of an optional integer (`undefined` and `0` are
falsy). -/
def jsTruthyNat : Option Nat → Bool
  | none => false
  | some n => decide (¬ n = 0)

/-- JavaScript falsiness of an optional string (`undefined` and `""` are
falsy). -/
def jsFalsyStr : Option String → Bool
  | none => true
  | some s => decide (s = "")

/-- The `x && x !== 'all'` filter idiom: returns the actual filter value, or
`none` when the parameter is absent, empty or `'all'`. -/
def activeFilter : Option String → Option String
  | none => none
  | some s => if s = "" then none else if s = "all" then none else some s

/-- `getRecord(id)`: `SELECT r.*, p.name AS project FROM record r JOIN project p
ON r.project_id = p.id WHERE r.id = ?`.  Returns the record row paired with its
owning project's name, or `none`. -/
def getRecord (db : Db) (i : Nat) : Option (Record × String) :=
  match db.records.find? (fun r => decide (r.id = i)) with
  | none => none
  | some r =>
    match db.projects.find? (fun p => decide (p.id = r.project_id)) with
    | none => none
    | some p => some (r, p.name)

/-- An output row of `listRecords` (`SELECT r.id, r.kind, r.title, r.status,
r.updated_at, p.name AS project`). -/
structure ListRow where
  id : Nat
  kind : String
  title : String
  status : String
  updated_at : String
  project : String
deriving DecidableEq

/-- The project-filter resolution at the top of `listRecords`: absent/empty or
`'current'` resolves to the current project id; `'*'` yields no id; any other
name is looked up (yielding no id when the name is unknown). -/
def resolveProjectFilter (db : Db) (project? : Option String) : Option Nat :=
  if jsFalsyStr project? ∨ project? = some "current" then some db.cur_id
  else if project? = some "*" then none
  else (db.projects.find? (fun p => decide (p.name = project?.getD ""))).map Project.id

/-- `listRecords({kind, status, project})`.  The `AND r.project_id = ?` clause
is appended only when the resolved `projectId` is truthy (JS `if (projectId)`),
so an unknown project name leaves the query unrestricted.  Rows are joined with
their project and ordered by `updated_at` descending. -/
def listRecords (db : Db) (kind? status? project? : Option String) : List ListRow :=
  let projectId := resolveProjectFilter db project?
  let rows := db.records.filterMap (fun r =>
    match db.projects.find? (fun p => decide (p.id = r.project_id)) with
    | none => none
    | some p =>
      let keep :=
        (if jsTruthyNat projectId then decide (r.project_id = projectId.getD 0) else true)
        && (match activeFilter kind? with
            | some k => decide (r.kind = k)
            | none => true)
        && (match activeFilter status? with
            | some s => decide (r.status = s)
            | none => true)
      if keep then some ⟨r.id, r.kind, r.title, r.status, r.updated_at, p.name⟩ else none)
  List.insertionSort (fun a b : ListRow => b.updated_at ≤ a.updated_at) rows

/-- `deleteRecord(id)`: delete the embedding row first, then the record row;
the returned boolean is `result.changes > 0` of the record deletion. -/
def deleteRecord (db : Db) (i : Nat) : Db × Bool :=
  let db1 : Db := { db with embeddings := db.embeddings.filter (fun e => decide (¬ e.1 = i)) }
  let changes := (db1.records.filter (fun r => decide (r.id = i))).length
  ({ db1 with records := db1.records.filter (fun r => decide (¬ r.id = i)) }, decide (0 < changes))

/-- A vec0 KNN query `embedding MATCH q AND k = k`: every entry of the virtual
table scored by the metric, ordered by ascending distance, truncated to `k`. -/
def knn (dist : Emb → Emb → ℚ) (db : Db) (q : Emb) (k : Nat) : List (Nat × ℚ) :=
  (List.insertionSort (fun a b : Nat × ℚ => a.2 ≤ b.2)
    (db.embeddings.map (fun e => (e.1, dist q e.2)))).take k

/-- A joined candidate row of the `searchRecords` SQL query. -/
structure SearchRow where
  record_id : Nat
  distance : ℚ
  id : Nat
  kind : String
  title : String
  body : String
  status : String
  created_at : String
  updated_at : String
  project : String
deriving DecidableEq

/-- A candidate row after the similarity/boost mapping (`{...row, similarity}`). -/
structure ScoredRow extends SearchRow where
  similarity : ℚ
deriving DecidableEq

/-- A final `searchRecords` result (`record_id` and `distance` stripped). -/
structure SearchHit where
  id : Nat
  kind : String
  title : String
  body : String
  status : String
  created_at : String
  updated_at : String
  project : String
  similarity : ℚ
deriving DecidableEq

/-- Assembling one joined row of the search query. -/
def searchRowOf (c : Nat × ℚ) (r : Record) (p : Project) : SearchRow :=
  ⟨c.1, c.2, r.id, r.kind, r.title, r.body, r.status, r.created_at, r.updated_at, p.name⟩

/-- The SQL part of `searchRecords`: KNN with `k = limit * 3` over the whole
vec0 table, inner-joined with `record` and `project`, with the optional
`AND r.kind = ?` clause applied to the joined rows, ordered by distance. -/
def searchRows (dist : Emb → Emb → ℚ) (db : Db) (q : Emb) (kind? : Option String)
    (limit : Nat) : List SearchRow :=
  (knn dist db q (limit * 3)).filterMap (fun c =>
    match db.records.find? (fun r => decide (r.id = c.1)) with
    | none => none
    | some r =>
      match db.projects.find? (fun p => decide (p.id = r.project_id)) with
      | none => none
      | some p =>
        match activeFilter kind? with
        | some k => if r.kind = k then some (searchRowOf c r p) else none
        | none => some (searchRowOf c r p))

/-- The similarity map of `searchRecords`: `similarity = 1 - distance`, plus a
`+0.1` boost capped at `1.0` when the row's owning project name equals the
current project's name. -/
def boostRow (db : Db) (row : SearchRow) : ScoredRow :=
  let s := 1 - row.distance
  if row.project = db.cur_name then ⟨row, min 1 (s + 1/10)⟩ else ⟨row, s⟩

/-- The final projection of `searchRecords` (drops `record_id` and `distance`). -/
def toHit (y : ScoredRow) : SearchHit :=
  ⟨y.id, y.kind, y.title, y.body, y.status, y.created_at, y.updated_at, y.project, y.similarity⟩

/-- The scored candidates surviving the `similarity >= 0.3` filter. -/
def searchSurvivors (dist : Emb → Emb → ℚ) (db : Db) (q : Emb) (kind? : Option String)
    (limit : Nat) : List ScoredRow :=
  ((searchRows dist db q kind? limit).map (boostRow db)).filter
    (fun r => decide ((3 : ℚ)/10 ≤ r.similarity))

/-- `searchRecords(embedding, {kind, projectId, limit})`: over-fetch, score,
boost, threshold-filter, re-sort descending by similarity, truncate to `limit`,
strip the internal fields.  `targetProjectId` is computed exactly as in the
source — and, exactly as in the source, never used afterwards. -/
def searchRecords (dist : Emb → Emb → ℚ) (db : Db) (q : Emb) (kind? : Option String)
    (projectId? : Option Nat) (limit : Nat) : List SearchHit :=
  let targetProjectId := projectId?.getD db.cur_id
  ((List.insertionSort (fun a b : ScoredRow => b.similarity ≤ a.similarity)
      (searchSurvivors dist db q kind? limit)).take limit).map toHit

/-- The next `AUTOINCREMENT` rowid: strictly greater than every existing id. -/
def nextId (rs : List Record) : Nat :=
  (rs.map (fun r => r.id)).foldr max 0 + 1

/-- The dedup query of `upsertRecord`: KNN with `k = 5` over the whole vec0
table, join-filtered to rows of the target project and kind, `LIMIT 1`. -/
def dedupCandidates (dist : Emb → Emb → ℚ) (db : Db) (q : Emb) (proj : Nat)
    (kind : String) : List (Nat × ℚ) :=
  ((knn dist db q 5).filter (fun c =>
    match db.records.find? (fun r => decide (r.id = c.1)) with
    | some r => decide (r.project_id = proj) && decide (r.kind = kind)
    | none => false)).take 1

/-- The explicit-update branch of `upsertRecord` (`id` given): overwrite
`kind, title, body, status, updated_at` of the row with that id, then replace
the embedding by delete-then-insert under the same key, then re-read. -/
def explicitUpdate (db : Db) (now : String) (i : Nat) (kind title body status : String)
    (embedding : Emb) : Db × Option (Record × String) :=
  let db1 : Db := { db with
    records := db.records.map (fun r =>
      if r.id = i then
        { r with kind := kind, title := title, body := body, status := status,
                 updated_at := now }
      else r),
    embeddings := db.embeddings.filter (fun e => decide (¬ e.1 = i)) ++ [(i, embedding)] }
  (db1, getRecord db1 i)

/-- The dedup-merge branch of `upsertRecord`: overwrite `title, body, status,
updated_at` of the close match, replace its embedding, return the existing row. -/
def mergeUpdate (db : Db) (now : String) (existingId : Nat) (title body status : String)
    (embedding : Emb) : Db × Option (Record × String) :=
  let db1 : Db := { db with
    records := db.records.map (fun r =>
      if r.id = existingId then
        { r with title := title, body := body, status := status, updated_at := now }
      else r),
    embeddings := db.embeddings.filter (fun e => decide (¬ e.1 = existingId))
      ++ [(existingId, embedding)] }
  (db1, getRecord db1 existingId)

/-- The insert branch of `upsertRecord`: a brand-new record row under a fresh
auto-assigned id, then its embedding under the new id. -/
def insertNewRecord (db : Db) (now : String) (proj : Nat) (kind title body status : String)
    (embedding : Emb) : Db × Option (Record × String) :=
  let newId := nextId db.records
  let r : Record := ⟨newId, proj, kind, title, body, status, now, now⟩
  let db1 : Db := { db with
    records := db.records ++ [r],
    embeddings := db.embeddings ++ [(newId, embedding)] }
  (db1, getRecord db1 newId)

/-- `upsertRecord({id, projectId, kind, title, body, status}, embedding)`:
explicit update when `id` is truthy; otherwise the dedup check (merge when the
nearest surviving candidate's distance is `≤ 0.15`), else a fresh insert. -/
def upsertRecord (dist : Emb → Emb → ℚ) (db : Db) (now : String) (id? projectId? : Option Nat)
    (kind title body status : String) (embedding : Emb) : Db × Option (Record × String) :=
  let proj := projectId?.getD db.cur_id
  if jsTruthyNat id? then
    explicitUpdate db now (id?.getD 0) kind title body status embedding
  else
    match dedupCandidates dist db embedding proj kind with
    | c :: _ =>
      if c.2 ≤ 15/100 then
        mergeUpdate db now c.1 title body status embedding
      else
        insertNewRecord db now proj kind title body status embedding
    | [] => insertNewRecord db now proj kind title body status embedding

/-- Decidable equality of `Except` values, used to evaluate migration
outcomes on concrete states. -/
instance exceptDecEq {ε α : Type} [DecidableEq ε] [DecidableEq α] :
    DecidableEq (Except ε α) := fun a b =>
  match a, b with
  | Except.ok x, Except.ok y =>
    decidable_of_iff (x = y) ⟨fun h => by rw [h], fun h => by injection h⟩
  | Except.ok _, Except.error _ => isFalse (fun h => Except.noConfusion h)
  | Except.error _, Except.ok _ => isFalse (fun h => Except.noConfusion h)
  | Except.error x, Except.error y =>
    decidable_of_iff (x = y) ⟨fun h => by rw [h], fun h => by injection h⟩

/-- A schema migration: a version number and an upgrade step that can fail. -/
structure Migration (S : Type) where
  version : Nat
  up : S → Except String S

/-- The migration-relevant durable state: the schema objects plus the rows of
the `schema_version` table. -/
structure MigDb (S : Type) where
  schema : S
  versions : List Nat
deriving DecidableEq

/-- `SELECT MAX(version) FROM schema_version`, with `NULL` read as `0`. -/
def maxVersion {S : Type} (db : MigDb S) : Nat :=
  db.versions.foldr max 0

/-- The transaction body of one migration: run `mod.up`, then insert the
version row.  A failing `up` fails the whole transaction, so neither the schema
changes nor the version row survive (better-sqlite3 rolls the transaction back
and rethrows). -/
def migrationTx {S : Type} (m : Migration S) (db : MigDb S) : Except String (MigDb S) :=
  match m.up db.schema with
  | Except.ok s => Except.ok ⟨s, db.versions ++ [m.version]⟩
  | Except.error e => Except.error e

/-- The migration loop of `runMigrations`: files in name order, each applied in
one transaction when its version exceeds the version read at the start; a
throwing transaction aborts the loop with the pre-transaction state intact. -/
def runMigrationsFrom {S : Type} (cur : Nat) :
    List (Migration S) → MigDb S → MigDb S × Option String
  | [], db => (db, none)
  | m :: rest, db =>
    if cur < m.version then
      match migrationTx m db with
      | Except.ok db2 => runMigrationsFrom cur rest db2
      | Except.error e => (db, some e)
    else
      runMigrationsFrom cur rest db

/-- `runMigrations`: read `MAX(version)` once, then apply the pending
migrations in order. -/
def runMigrations {S : Type} (migs : List (Migration S)) (db : MigDb S) :
    MigDb S × Option String :=
  runMigrationsFrom (maxVersion db) migs db

/-- How many record rows carry the given id. -/
def recCount (rs : List Record) (i : Nat) : Nat :=
  rs.countP (fun r => decide (r.id = i))

/-- How many embedding rows carry the given key. -/
def embCount (es : List (Nat × Emb)) (i : Nat) : Nat :=
  es.countP (fun e => decide (e.1 = i))

/-- Boolean well-formedness check: record ids are pairwise distinct (the
`INTEGER PRIMARY KEY` invariant). -/
def recIdsNodup (rs : List Record) : Bool :=
  decide ((rs.map (fun r => r.id)).Nodup)

/-- Boolean well-formedness check: every embedding key is some record's id (no
orphaned embedding). -/
def embKeysCovered (db : Db) : Bool :=
  db.embeddings.all (fun e => db.records.any (fun r => decide (r.id = e.1)))

/-! Concrete states used to evaluate the model.  Distance functions stand for
the cosine metric on particular vector configurations; the values used
(0, 1/200, 1/100, 1/20, 1/10, ...) are all realisable as cosine distances of
unit vectors in ℝ^384. -/

/-- A project row: the caller's current project. -/
def pAlpha : Project := ⟨1, "alpha", "2024-01-01", "2024-01-01"⟩

/-- A second, foreign project row. -/
def pBeta : Project := ⟨2, "beta", "2024-01-01", "2024-01-01"⟩

/-- One project, one record, current project `alpha`. -/
def dbC1 : Db :=
  ⟨[pAlpha], [⟨1, 1, "issue", "t", "", "open", "2024-01-01", "2024-01-01"⟩], [], 1, "alpha"⟩

/-- An `issue` record of the given id and project. -/
def issueRec (i pid : Nat) : Record := ⟨i, pid, "issue", "r", "", "open", "d", "d"⟩

/-- Five `issue` records in project 2 and one in project 1, each with its
embedding; current project is 1 (`alpha`). -/
def dbC3 : Db :=
  ⟨[pAlpha, pBeta],
   [issueRec 1 2, issueRec 2 2, issueRec 3 2, issueRec 4 2, issueRec 5 2, issueRec 6 1],
   [(1, [1]), (2, [2]), (3, [3]), (4, [4]), (5, [5]), (6, [6])],
   1, "alpha"⟩

/-- Cosine distances from the upserted text's embedding: 1/10 to project 1's
record 6, and 1/20 to each of project 2's records 1–5. -/
def distC3 : Emb → Emb → ℚ := fun _ v =>
  match v with
  | [6] => 1/10
  | [_] => 1/20
  | _ => 1

/-- Five `issue` records in project 2 (with embeddings), none yet in
project 1; current project is 1 (`alpha`). -/
def dbC6 : Db :=
  ⟨[pAlpha, pBeta],
   [issueRec 1 2, issueRec 2 2, issueRec 3 2, issueRec 4 2, issueRec 5 2],
   [(1, [1]), (2, [2]), (3, [3]), (4, [4]), (5, [5])],
   1, "alpha"⟩

/-- Cosine distances for the two near-identical upserts: the second text's
embedding `[7]` lies at 1/100 from the first's `[6]` and at 1/200 from each of
project 2's five vectors. -/
def distC6 : Emb → Emb → ℚ := fun _ v =>
  match v with
  | [6] => 1/100
  | [7] => 0
  | [_] => 1/200
  | _ => 1

/-- Three records across two projects and two kinds, with embeddings. -/
def dbS : Db :=
  ⟨[pAlpha, pBeta],
   [⟨1, 1, "issue", "a", "", "open", "d", "d"⟩,
    ⟨2, 2, "issue", "b", "", "open", "d", "d"⟩,
    ⟨3, 1, "spec", "c", "", "open", "d", "d"⟩],
   [(1, [1]), (2, [2]), (3, [3])],
   1, "alpha"⟩

/-- Query distances for `dbS`: 1/10, 1/5 and 9/10 to records 1, 2, 3. -/
def distS : Emb → Emb → ℚ := fun _ v =>
  match v with
  | [1] => 1/10
  | [2] => 1/5
  | [3] => 9/10
  | _ => 1

/-- The first search hit over `dbS` (record 1, boosted to the 1.0 cap). -/
def hitS : SearchHit := ⟨1, "issue", "a", "", "open", "d", "d", "alpha", 1⟩

/-- One project and no records: the state for a fresh-insert evaluation. -/
def dbEmpty : Db := ⟨[pAlpha], [], [], 1, "alpha"⟩

/-- A migration that succeeds, creating one schema object. -/
def migOk : Migration (List String) := ⟨2, fun s => Except.ok ("table_v2" :: s)⟩

/-- A migration whose upgrade step fails. -/
def migBoom : Migration (List String) := ⟨3, fun _ => Except.error "boom"⟩

/-- Durable state before the migration run: one schema object, version 1. -/
def migDb0 : MigDb (List String) := ⟨["table_v1"], [1]⟩

/-! Helper lemmas. -/

theorem getRecord_eq_some {db : Db} {i : Nat} {out : Record × String}
    (h : getRecord db i = some out) : out.1.id = i ∧ out.1 ∈ db.records := by
  cases h1 : db.records.find? (fun r => decide (r.id = i)) with
  | none => simp [getRecord, h1] at h
  | some r =>
    cases h2 : db.projects.find? (fun p => decide (p.id = r.project_id)) with
    | none => simp [getRecord, h1, h2] at h
    | some p =>
      simp only [getRecord, h1, h2, Option.some.injEq] at h
      subst h
      have hp := List.find?_some h1
      exact ⟨of_decide_eq_true hp, List.mem_of_find?_eq_some h1⟩

theorem le_foldr_max {l : List Nat} {a : Nat} (h : a ∈ l) : a ≤ l.foldr max 0 := by
  induction l with
  | nil => cases h
  | cons x t ih =>
    rw [List.foldr_cons]
    rcases List.mem_cons.mp h with h | h
    · subst h; exact le_max_left _ _
    · exact (ih h).trans (le_max_right _ _)

theorem foldr_max_lt {l : List Nat} {V : Nat} (h0 : 0 < V) (hl : ∀ v ∈ l, v < V) :
    l.foldr max 0 < V := by
  induction l with
  | nil => exact h0
  | cons x t ih =>
    rw [List.foldr_cons]
    exact max_lt (hl x (List.mem_cons_self x t)) (ih fun v hv => hl v (List.mem_cons_of_mem x hv))

theorem id_lt_nextId {rs : List Record} {r : Record} (h : r ∈ rs) : r.id < nextId rs :=
  Nat.lt_succ_of_le (le_foldr_max (List.mem_map_of_mem (fun x => x.id) h))

/-! Claim C10. -/

/-- C10: the result of `searchRecords` is identical for any two values of its
`projectId` option (including absent): `targetProjectId` is computed but never
restricts the candidate set nor affects the boost. -/
theorem search_ignores_projectId_option (dist : Emb → Emb → ℚ) (db : Db) (q : Emb)
    (kind? : Option String) (pid1 pid2 : Option Nat) (limit : Nat) :
    searchRecords dist db q kind? pid1 limit = searchRecords dist db q kind? pid2 limit := rfl

/-! Claim C1. -/

/-- C1 counterexample: `"beta"` names no project of `dbC1`, yet
`listRecords` with `project = "beta"` returns `dbC1`'s record (owned by
`"alpha"`) instead of the empty list: the unresolved project id is falsy, so
the `AND r.project_id = ?` clause is never added. -/
theorem listRecords_unknown_project_counterexample :
    (dbC1.projects.find? (fun pr => decide (pr.name = "beta")) = none)
    ∧ ¬ listRecords dbC1 none none (some "beta") = []
    ∧ listRecords dbC1 none none (some "beta")
      = [⟨1, "issue", "t", "open", "2024-01-01", "alpha"⟩] := by decide

/-- C1 amended: a `project` filter string that is not absent, `"current"` or
`"*"` and matches no existing project name drops the project restriction
entirely — the result equals the unrestricted (`"*"`) query over all projects,
not the empty list. -/
theorem listRecords_unknown_project_drops_filter (db : Db) (kind? status? : Option String)
    (p : String) (h1 : ¬ p = "") (h2 : ¬ p = "current") (h3 : ¬ p = "*")
    (h4 : db.projects.find? (fun pr => decide (pr.name = p)) = none) :
    listRecords db kind? status? (some p) = listRecords db kind? status? (some "*") := by
  have e1 : resolveProjectFilter db (some p) = none := by
    simp [resolveProjectFilter, jsFalsyStr, h1, h2, h3, h4]
  have e2 : resolveProjectFilter db (some "*") = none := by
    simp [resolveProjectFilter, jsFalsyStr]
  unfold listRecords
  rw [e1, e2]

/-- C1 amended, witness: the hypotheses hold for `dbC1` with the unknown name
`"beta"`, and the conclusion follows by the theorem. -/
theorem listRecords_unknown_project_drops_filter_witness :
    (dbC1.projects.find? (fun pr => decide (pr.name = "beta")) = none)
    ∧ listRecords dbC1 none none (some "beta") = listRecords dbC1 none none (some "*") :=
  ⟨by decide,
   listRecords_unknown_project_drops_filter dbC1 none none "beta"
     (by decide) (by decide) (by decide) (by decide)⟩

/-! Claim C8. -/

/-- C8: `deleteRecord` returns `true` iff a record with that id existed; it
removes exactly the embedding rows and record rows keyed by that id; and when
no such record exists (in a state without orphaned embeddings) the state is
unchanged.  The model applies the embedding deletion first, then the record
deletion, exactly as the source does. -/
theorem deleteRecord_reports_and_removes (db : Db) (i : Nat)
    (hcov : embKeysCovered db = true) :
    ((deleteRecord db i).2 = true ↔ 0 < recCount db.records i)
    ∧ (deleteRecord db i).1.embeddings = db.embeddings.filter (fun e => decide (¬ e.1 = i))
    ∧ (deleteRecord db i).1.records = db.records.filter (fun r => decide (¬ r.id = i))
    ∧ (recCount db.records i = 0 → (deleteRecord db i).1 = db) := by
  refine ⟨?_, rfl, rfl, ?_⟩
  · show decide (0 < (db.records.filter (fun r => decide (r.id = i))).length) = true ↔ _
    rw [decide_eq_true_iff, recCount, List.countP_eq_length_filter]
  · intro h0
    have hno : ∀ r ∈ db.records, ¬ r.id = i := by
      intro r hr
      have := (List.countP_eq_zero.mp h0) r hr
      simpa using this
    have hr : db.records.filter (fun r => decide (¬ r.id = i)) = db.records :=
      List.filter_eq_self.mpr (fun r hrm => decide_eq_true (hno r hrm))
    have he : db.embeddings.filter (fun e => decide (¬ e.1 = i)) = db.embeddings := by
      refine List.filter_eq_self.mpr (fun e hem => decide_eq_true ?_)
      rcases List.any_eq_true.mp (List.all_eq_true.mp hcov e hem) with ⟨r, hrm, hrid⟩
      have hre : r.id = e.1 := of_decide_eq_true hrid
      intro hei
      exact hno r hrm (hre.trans hei)
    show Db.mk db.projects (db.records.filter (fun r => decide (¬ r.id = i)))
        (db.embeddings.filter (fun e => decide (¬ e.1 = i))) db.cur_id db.cur_name = db
    rw [hr, he]

/-- C8 witness: deleting the absent id 9 from `dbC1` returns `false` and
leaves the state unchanged; deleting id 1 returns `true`. -/
theorem deleteRecord_reports_and_removes_witness :
    (embKeysCovered dbC1 = true)
    ∧ (((deleteRecord dbC1 9).2 = true ↔ 0 < recCount dbC1.records 9)
       ∧ (deleteRecord dbC1 9).1.embeddings
         = dbC1.embeddings.filter (fun e => decide (¬ e.1 = 9))
       ∧ (deleteRecord dbC1 9).1.records
         = dbC1.records.filter (fun r => decide (¬ r.id = 9))
       ∧ (recCount dbC1.records 9 = 0 → (deleteRecord dbC1 9).1 = dbC1))
    ∧ (deleteRecord dbC1 9).2 = false ∧ (deleteRecord dbC1 1).2 = true :=
  ⟨by decide, deleteRecord_reports_and_removes dbC1 9 (by decide), by decide, by decide⟩

/-! Claim C7. -/

/-- C7: `upsertRecord` with an explicit (truthy) id overwrites exactly that
record's `kind, title, body, status, updated_at` and nothing else, replaces its
embedding by delete-then-insert under the same key, never inserts a record row
(the record list is a pointwise map, its length unchanged, also across a second
update), performs no dedup check (the result does not depend on the distance
metric), and returns a record carrying the same id. -/
theorem explicit_update_frame (dist dist2 : Emb → Emb → ℚ) (db : Db) (now now2 : String)
    (i : Nat) (projectId? projectId2? : Option Nat)
    (kind title body status kind2 title2 body2 status2 : String) (emb emb2 : Emb)
    (hi : ¬ i = 0) :
    (upsertRecord dist db now (some i) projectId? kind title body status emb).1.records
      = db.records.map (fun r =>
          if r.id = i then
            { r with kind := kind, title := title, body := body, status := status,
                     updated_at := now }
          else r)
    ∧ (upsertRecord dist db now (some i) projectId? kind title body status emb).1.embeddings
      = db.embeddings.filter (fun e => decide (¬ e.1 = i)) ++ [(i, emb)]
    ∧ (upsertRecord dist db now (some i) projectId? kind title body status emb).1.projects
      = db.projects
    ∧ (upsertRecord dist db now (some i) projectId? kind title body status emb).1.records.length
      = db.records.length
    ∧ upsertRecord dist2 db now (some i) projectId? kind title body status emb
      = upsertRecord dist db now (some i) projectId? kind title body status emb
    ∧ Option.elim (upsertRecord dist db now (some i) projectId? kind title body status emb).2
        True (fun o => o.1.id = i)
    ∧ (upsertRecord dist2
        (upsertRecord dist db now (some i) projectId? kind title body status emb).1
        now2 (some i) projectId2? kind2 title2 body2 status2 emb2).1.records.length
      = db.records.length := by
  have hb : jsTruthyNat (some i) = true := by simp [jsTruthyNat, hi]
  have hexp : ∀ (d : Emb → Emb → ℚ) (db0 : Db) (n : String) (p? : Option Nat)
      (k t b s : String) (em : Emb),
      upsertRecord d db0 n (some i) p? k t b s em = explicitUpdate db0 n i k t b s em := by
    intro d db0 n p? k t b s em
    unfold upsertRecord
    rw [hb]
    simp
  rw [hexp, hexp, hexp]
  refine ⟨rfl, rfl, rfl, by simp [explicitUpdate], rfl, ?_, by simp [explicitUpdate]⟩
  cases hg : (explicitUpdate db now i kind title body status emb).2 with
  | none => exact trivial
  | some o =>
    show o.1.id = i
    exact (getRecord_eq_some hg).1

/-- C7 witness:id 1 is updated in `dbC1`; all frame conditions evaluate on the
concrete state. -/
theorem explicit_update_frame_witness :
    (¬ (1 : Nat) = 0)
    ∧ ((upsertRecord distS dbC1 "n1" (some 1) none "spec" "t2" "b2" "resolved" [4]).1.records
        = dbC1.records.map (fun r =>
            if r.id = 1 then
              { r with kind := "spec", title := "t2", body := "b2", status := "resolved",
                       updated_at := "n1" }
            else r)
       ∧ (upsertRecord distS dbC1 "n1" (some 1) none "spec" "t2" "b2" "resolved" [4]).1.embeddings
        = dbC1.embeddings.filter (fun e => decide (¬ e.1 = 1)) ++ [(1, [4])]
       ∧ (upsertRecord distS dbC1 "n1" (some 1) none "spec" "t2" "b2" "resolved" [4]).1.projects
        = dbC1.projects
       ∧ (upsertRecord distS dbC1 "n1" (some 1) none "spec" "t2" "b2" "resolved" [4]).1.records.length
        = dbC1.records.length
       ∧ upsertRecord distC3 dbC1 "n1" (some 1) none "spec" "t2" "b2" "resolved" [4]
        = upsertRecord distS dbC1 "n1" (some 1) none "spec" "t2" "b2" "resolved" [4]
       ∧ Option.elim (upsertRecord distS dbC1 "n1" (some 1) none "spec" "t2" "b2" "resolved" [4]).2
          True (fun o => o.1.id = 1)
       ∧ (upsertRecord distC3
           (upsertRecord distS dbC1 "n1" (some 1) none "spec" "t2" "b2" "resolved" [4]).1
           "n2" (some 1) none "arch" "t3" "b3" "open" [5]).1.records.length
        = dbC1.records.length) :=
  ⟨by decide,
   explicit_update_frame distS distC3 dbC1 "n1" "n2" 1 none none
     "spec" "t2" "b2" "resolved" "arch" "t3" "b3" "open" [4] [5] (by decide)⟩

/-! Claim C2. -/

theorem countP_le_one_of_nodup {l : List Nat} (hn : l.Nodup) (i : Nat) :
    l.countP (fun n => decide (n = i)) ≤ 1 := by
  induction l with
  | nil => simp
  | cons x t ih =>
    rw [List.countP_cons]
    rcases List.nodup_cons.mp hn with ⟨hx, ht⟩
    by_cases hxi : x = i
    · subst hxi
      have h0 : t.countP (fun n => decide (n = x)) = 0 := by
        rw [List.countP_eq_zero]
        intro a ha
        simp only [decide_eq_true_eq]
        intro hax
        exact hx (hax ▸ ha)
      simp [h0]
    · simp [hxi, ih ht]

theorem recCount_map {rs : List Record} {f : Record → Record}
    (hf : ∀ r, (f r).id = r.id) (i : Nat) : recCount (rs.map f) i = recCount rs i := by
  unfold recCount
  rw [List.countP_map]
  exact List.countP_congr (fun r _ => by simp [Function.comp, hf r])

theorem recCount_le_one {rs : List Record} (h : recIdsNodup rs = true) (i : Nat) :
    recCount rs i ≤ 1 := by
  have hn : (rs.map (fun r => r.id)).Nodup := of_decide_eq_true h
  have he : recCount rs i = (rs.map (fun r => r.id)).countP (fun n => decide (n = i)) := by
    rw [List.countP_map]
    exact (List.countP_congr (fun r _ => by simp [Function.comp])).symm
  rw [he]
  exact countP_le_one_of_nodup hn i

theorem recCount_pos {rs : List Record} {r : Record} {i : Nat} (hm : r ∈ rs)
    (hid : r.id = i) : 0 < recCount rs i := by
  unfold recCount
  rw [List.countP_pos_iff]
  exact ⟨r, hm, decide_eq_true hid⟩

theorem embCount_replaced (es : List (Nat × Emb)) (i : Nat) (emb : Emb) :
    embCount (es.filter (fun e => decide (¬ e.1 = i)) ++ [(i, emb)]) i = 1 := by
  unfold embCount
  rw [List.countP_append]
  have h1 : (es.filter (fun e => decide (¬ e.1 = i))).countP (fun e => decide (e.1 = i)) = 0 := by
    rw [List.countP_eq_zero]
    intro e he
    have h2 := (List.mem_filter.mp he).2
    simp only [decide_eq_true_eq] at h2 ⊢
    exact h2
  rw [h1]
  simp

theorem recCount_nextId_zero (rs : List Record) : recCount rs (nextId rs) = 0 := by
  unfold recCount
  rw [List.countP_eq_zero]
  intro r hr
  simp only [decide_eq_true_eq]
  have := id_lt_nextId hr
  omega

theorem embCount_nextId_zero {db : Db} (hcov : embKeysCovered db = true) :
    embCount db.embeddings (nextId db.records) = 0 := by
  unfold embCount
  rw [List.countP_eq_zero]
  intro e he
  simp only [decide_eq_true_eq]
  rcases List.any_eq_true.mp (List.all_eq_true.mp hcov e he) with ⟨r, hr, hrid⟩
  have h1 : r.id = e.1 := of_decide_eq_true hrid
  have h2 := id_lt_nextId hr
  omega

theorem pair_counts_of_update {db : Db} {f : Record → Record} {i : Nat} {emb : Emb}
    {out : Record × String}
    (hf : ∀ r, (f r).id = r.id)
    (hn : recIdsNodup db.records = true)
    (hg : getRecord (Db.mk db.projects (db.records.map f)
        (db.embeddings.filter (fun e => decide (¬ e.1 = i)) ++ [(i, emb)])
        db.cur_id db.cur_name) i = some out) :
    recCount (db.records.map f) out.1.id = 1
    ∧ embCount (db.embeddings.filter (fun e => decide (¬ e.1 = i)) ++ [(i, emb)]) out.1.id = 1 := by
  obtain ⟨hid, hmem⟩ := getRecord_eq_some hg
  constructor
  · rw [hid, recCount_map hf]
    refine Nat.le_antisymm (recCount_le_one hn i) ?_
    rcases List.mem_map.mp hmem with ⟨r, hr, hfr⟩
    exact recCount_pos hr (by rw [← hf r, hfr, hid])
  · rw [hid]
    exact embCount_replaced _ _ _

theorem pair_counts_of_insert {db : Db} {now : String} {proj : Nat}
    {kind title body status : String} {emb : Emb} {out : Record × String}
    (hcov : embKeysCovered db = true)
    (hg : (insertNewRecord db now proj kind title body status emb).2 = some out) :
    recCount (insertNewRecord db now proj kind title body status emb).1.records out.1.id = 1
    ∧ embCount (insertNewRecord db now proj kind title body status emb).1.embeddings
        out.1.id = 1 := by
  obtain ⟨hid, _⟩ := getRecord_eq_some hg
  constructor
  · show recCount (db.records
        ++ [⟨nextId db.records, proj, kind, title, body, status, now, now⟩]) out.1.id = 1
    rw [hid]
    unfold recCount
    rw [List.countP_append]
    have h0 := recCount_nextId_zero db.records
    unfold recCount at h0
    rw [h0]
    simp
  · show embCount (db.embeddings ++ [(nextId db.records, emb)]) out.1.id = 1
    rw [hid]
    unfold embCount
    rw [List.countP_append]
    have h0 := embCount_nextId_zero hcov
    unfold embCount at h0
    rw [h0]
    simp

theorem upsert_eq_insert_of_nil (dist : Emb → Emb → ℚ) (db : Db) (now : String)
    (id? projectId? : Option Nat) (kind title body status : String) (emb : Emb)
    (hb : jsTruthyNat id? = false)
    (hc : dedupCandidates dist db emb (projectId?.getD db.cur_id) kind = []) :
    upsertRecord dist db now id? projectId? kind title body status emb
    = insertNewRecord db now (projectId?.getD db.cur_id) kind title body status emb := by
  unfold upsertRecord
  rw [hb]
  simp [hc]

theorem upsert_eq_merge (dist : Emb → Emb → ℚ) (db : Db) (now : String)
    (id? projectId? : Option Nat) (kind title body status : String) (emb : Emb)
    (c : Nat × ℚ) (rest : List (Nat × ℚ))
    (hb : jsTruthyNat id? = false)
    (hc : dedupCandidates dist db emb (projectId?.getD db.cur_id) kind = c :: rest)
    (hle : c.2 ≤ 15/100) :
    upsertRecord dist db now id? projectId? kind title body status emb
    = mergeUpdate db now c.1 title body status emb := by
  unfold upsertRecord
  rw [hb]
  simp [hc, hle]

theorem upsert_eq_insert_of_far (dist : Emb → Emb → ℚ) (db : Db) (now : String)
    (id? projectId? : Option Nat) (kind title body status : String) (emb : Emb)
    (c : Nat × ℚ) (rest : List (Nat × ℚ))
    (hb : jsTruthyNat id? = false)
    (hc : dedupCandidates dist db emb (projectId?.getD db.cur_id) kind = c :: rest)
    (hle : ¬ c.2 ≤ 15/100) :
    upsertRecord dist db now id? projectId? kind title body status emb
    = insertNewRecord db now (projectId?.getD db.cur_id) kind title body status emb := by
  unfold upsertRecord
  rw [hb]
  simp [hc, hle]

/-- C2: after any `upsertRecord` call (explicit id, dedup merge, or fresh
insert) that returns a record, exactly one record row and exactly one embedding
row exist for the returned record's id — the embedding's key equals that id —
provided record ids were unique and no embedding was orphaned beforehand. -/
theorem upsert_unique_record_embedding_pair (dist : Emb → Emb → ℚ) (db : Db) (now : String)
    (id? projectId? : Option Nat) (kind title body status : String) (emb : Emb)
    (out : Record × String)
    (hn : recIdsNodup db.records = true)
    (hcov : embKeysCovered db = true)
    (h : (upsertRecord dist db now id? projectId? kind title body status emb).2 = some out) :
    recCount (upsertRecord dist db now id? projectId? kind title body status emb).1.records
      out.1.id = 1
    ∧ embCount (upsertRecord dist db now id? projectId? kind title body status emb).1.embeddings
      out.1.id = 1 := by
  cases hb : jsTruthyNat id? with
  | true =>
    have hexp : upsertRecord dist db now id? projectId? kind title body status emb
        = explicitUpdate db now (id?.getD 0) kind title body status emb := by
      unfold upsertRecord
      rw [hb]
      simp
    rw [hexp] at h ⊢
    exact pair_counts_of_update
      (fun r => by by_cases hri : r.id = id?.getD 0 <;> simp [hri]) hn h
  | false =>
    cases hc : dedupCandidates dist db emb (projectId?.getD db.cur_id) kind with
    | nil =>
      rw [upsert_eq_insert_of_nil dist db now id? projectId?
        kind title body status emb hb hc] at h ⊢
      exact pair_counts_of_insert hcov h
    | cons c rest =>
      by_cases hle : c.2 ≤ 15/100
      · rw [upsert_eq_merge dist db now id? projectId?
          kind title body status emb c rest hb hc hle] at h ⊢
        exact pair_counts_of_update
          (fun r => by by_cases hri : r.id = c.1 <;> simp [hri]) hn h
      · rw [upsert_eq_insert_of_far dist db now id? projectId?
          kind title body status emb c rest hb hc hle] at h ⊢
        exact pair_counts_of_insert hcov h

/-- C2 witness: a fresh insert into the empty store yields the record/embedding
pair for id 1, exactly once each. -/
theorem upsert_unique_record_embedding_pair_witness :
    (recIdsNodup dbEmpty.records = true)
    ∧ (embKeysCovered dbEmpty = true)
    ∧ ((upsertRecord distS dbEmpty "now" none none "issue" "t" "" "open" [1]).2
       = some (⟨1, 1, "issue", "t", "", "open", "now", "now"⟩, "alpha"))
    ∧ recCount (upsertRecord distS dbEmpty "now" none none "issue" "t" "" "open" [1]).1.records
        1 = 1
    ∧ embCount (upsertRecord distS dbEmpty "now" none none "issue" "t" "" "open" [1]).1.embeddings
        1 = 1 :=
  ⟨by decide, by decide, by decide,
   (upsert_unique_record_embedding_pair distS dbEmpty "now" none none "issue" "t" "" "open" [1]
     (⟨1, 1, "issue", "t", "", "open", "now", "now"⟩, "alpha")
     (by decide) (by decide) (by decide)).1,
   (upsert_unique_record_embedding_pair distS dbEmpty "now" none none "issue" "t" "" "open" [1]
     (⟨1, 1, "issue", "t", "", "open", "now", "now"⟩, "alpha")
     (by decide) (by decide) (by decide)).2⟩

/-! Claims C4 and C5. -/

theorem mem_searchRows_dist {dist : Emb → Emb → ℚ} {db : Db} {q : Emb} {kind? : Option String}
    {limit : Nat} {row : SearchRow} (h : row ∈ searchRows dist db q kind? limit) :
    ∃ e ∈ db.embeddings, row.distance = dist q e.2 := by
  rcases List.mem_filterMap.mp h with ⟨c, hc, hfc⟩
  have hd : row.distance = c.2 := by
    cases h1 : db.records.find? (fun r => decide (r.id = c.1)) with
    | none => simp [h1] at hfc
    | some r =>
      cases h2 : db.projects.find? (fun p => decide (p.id = r.project_id)) with
      | none => simp [h1, h2] at hfc
      | some p =>
        cases h3 : activeFilter kind? with
        | none =>
          simp only [h1, h2, h3, Option.some.injEq] at hfc
          rw [← hfc]
          rfl
        | some k =>
          simp only [h1, h2, h3] at hfc
          by_cases hk : r.kind = k
          · rw [if_pos hk] at hfc
            simp only [Option.some.injEq] at hfc
            rw [← hfc]
            rfl
          · rw [if_neg hk] at hfc
            cases hfc
  have hmem : c ∈ db.embeddings.map (fun e => (e.1, dist q e.2)) :=
    (List.mem_insertionSort _).mp ((List.take_sublist _ _).subset hc)
  rcases List.mem_map.mp hmem with ⟨e, he, hee⟩
  exact ⟨e, he, by rw [hd, ← hee]⟩

theorem boostRow_le_one (db : Db) (row : SearchRow) (hd : 0 ≤ row.distance) :
    (boostRow db row).similarity ≤ 1 := by
  unfold boostRow
  by_cases hp : row.project = db.cur_name
  · rw [if_pos hp]
    exact min_le_left _ _
  · rw [if_neg hp]
    show 1 - row.distance ≤ 1
    linarith

/-- C5: every hit returned by `searchRecords` has similarity at most `1.0`
(given that the metric is nonnegative on the stored vectors, as cosine distance
is), and the per-candidate score is exactly `1 - distance`, plus `0.1` capped
at `1.0` precisely when the candidate's owning project name equals the current
project's name. -/
theorem search_similarity_boost_cap (dist : Emb → Emb → ℚ) (db : Db) (q : Emb)
    (kind? : Option String) (projectId? : Option Nat) (limit : Nat)
    (x : SearchHit) (row : SearchRow)
    (hx : x ∈ searchRecords dist db q kind? projectId? limit)
    (hnn : db.embeddings.all (fun e => decide (0 ≤ dist q e.2)) = true) :
    x.similarity ≤ 1
    ∧ boostRow db row
      = if row.project = db.cur_name then ⟨row, min 1 ((1 - row.distance) + 1/10)⟩
        else ⟨row, 1 - row.distance⟩ := by
  constructor
  · rcases List.mem_map.mp hx with ⟨y, hy, hxy⟩
    have hyS : y ∈ searchSurvivors dist db q kind? limit :=
      (List.mem_insertionSort _).mp ((List.take_sublist _ _).subset hy)
    have hyM := (List.mem_filter.mp hyS).1
    rcases List.mem_map.mp hyM with ⟨r, hr, hbr⟩
    rcases mem_searchRows_dist hr with ⟨e, he, hde⟩
    have hdnn : (0:ℚ) ≤ r.distance := by
      rw [hde]
      exact of_decide_eq_true (List.all_eq_true.mp hnn e he)
    subst hxy
    subst hbr
    exact boostRow_le_one db r hdnn
  · rfl

/-- C5 witness: the top hit of the concrete search has similarity capped at 1,
and the boost formula evaluates on a concrete candidate row. -/
theorem search_similarity_boost_cap_witness :
    (hitS ∈ searchRecords distS dbS [0] none none 5)
    ∧ (dbS.embeddings.all (fun e => decide (0 ≤ distS [0] e.2)) = true)
    ∧ (hitS.similarity ≤ 1
       ∧ boostRow dbS ⟨1, 1/10, 1, "issue", "a", "", "open", "d", "d", "alpha"⟩
         = if (SearchRow.mk 1 (1/10) 1 "issue" "a" "" "open" "d" "d" "alpha").project
             = dbS.cur_name then
             ⟨⟨1, 1/10, 1, "issue", "a", "", "open", "d", "d", "alpha"⟩,
              min 1 ((1 - (SearchRow.mk 1 (1/10) 1 "issue" "a" "" "open" "d" "d"
                "alpha").distance) + 1/10)⟩
           else
             ⟨⟨1, 1/10, 1, "issue", "a", "", "open", "d", "d", "alpha"⟩,
              1 - (SearchRow.mk 1 (1/10) 1 "issue" "a" "" "open" "d" "d" "alpha").distance⟩) :=
  ⟨by decide, by decide,
   search_similarity_boost_cap distS dbS [0] none none 5 hitS
     ⟨1, 1/10, 1, "issue", "a", "", "open", "d", "d", "alpha"⟩ (by decide) (by decide)⟩

/-- C4: for every call, `searchRecords` returns a list of length
`min limit survivors` (so at most `limit`, with truncation biting exactly when
more than `limit` candidates survive), sorted descending by boosted similarity,
in which every entry has similarity at least `0.3` and comes from a surviving
candidate; when at most `limit` candidates survive, the result is exactly the
survivors (no padding, no error); and in every regime a survivor left out of
the result ranks no higher than any returned entry — the truncation keeps the
top of the ranking. -/
theorem search_threshold_sort_truncate (dist : Emb → Emb → ℚ) (db : Db) (q : Emb)
    (kind? : Option String) (projectId? : Option Nat) (limit : Nat) :
    (searchRecords dist db q kind? projectId? limit).length
      = min limit (searchSurvivors dist db q kind? limit).length
    ∧ List.Pairwise (fun a b : SearchHit => b.similarity ≤ a.similarity)
        (searchRecords dist db q kind? projectId? limit)
    ∧ (∀ x ∈ searchRecords dist db q kind? projectId? limit, (3:ℚ)/10 ≤ x.similarity)
    ∧ (∀ x ∈ searchRecords dist db q kind? projectId? limit,
        ∃ y ∈ searchSurvivors dist db q kind? limit, toHit y = x)
    ∧ ((searchSurvivors dist db q kind? limit).length ≤ limit →
        (searchRecords dist db q kind? projectId? limit).Perm
          ((searchSurvivors dist db q kind? limit).map toHit))
    ∧ (∀ y ∈ searchSurvivors dist db q kind? limit,
        toHit y ∈ searchRecords dist db q kind? projectId? limit
        ∨ ∀ x ∈ searchRecords dist db q kind? projectId? limit,
            y.similarity ≤ x.similarity) := by
  haveI ht : IsTotal ScoredRow (fun a b => b.similarity ≤ a.similarity) :=
    ⟨fun a b => le_total b.similarity a.similarity⟩
  haveI htr : IsTrans ScoredRow (fun a b => b.similarity ≤ a.similarity) :=
    ⟨fun a b c hab hbc => le_trans hbc hab⟩
  have hR : searchRecords dist db q kind? projectId? limit
      = ((List.insertionSort (fun a b : ScoredRow => b.similarity ≤ a.similarity)
          (searchSurvivors dist db q kind? limit)).take limit).map toHit := rfl
  have hsorted := List.sorted_insertionSort
    (fun a b : ScoredRow => b.similarity ≤ a.similarity)
    (searchSurvivors dist db q kind? limit)
  refine ⟨?_, ?_, ?_, ?_, ?_, ?_⟩
  · rw [hR, List.length_map, List.length_take, List.length_insertionSort]
  · rw [hR, List.pairwise_map]
    exact List.Pairwise.sublist (List.take_sublist _ _) hsorted
  · intro x hx
    rcases List.mem_map.mp hx with ⟨y, hy, hxy⟩
    have hyS : y ∈ searchSurvivors dist db q kind? limit :=
      (List.mem_insertionSort _).mp ((List.take_sublist _ _).subset hy)
    have h3 : (3:ℚ)/10 ≤ y.similarity :=
      of_decide_eq_true (List.mem_filter.mp hyS).2
    rw [← hxy]
    exact h3
  · intro x hx
    rcases List.mem_map.mp hx with ⟨y, hy, hxy⟩
    exact ⟨y, (List.mem_insertionSort _).mp ((List.take_sublist _ _).subset hy), hxy⟩
  · intro hfew
    rw [hR]
    have hlen : (List.insertionSort (fun a b : ScoredRow => b.similarity ≤ a.similarity)
        (searchSurvivors dist db q kind? limit)).length ≤ limit := by
      rw [List.length_insertionSort]
      exact hfew
    rw [List.take_of_length_le hlen]
    exact (List.perm_insertionSort _ _).map toHit
  · intro y hy
    have hysort : y ∈ List.insertionSort (fun a b : ScoredRow => b.similarity ≤ a.similarity)
        (searchSurvivors dist db q kind? limit) := (List.mem_insertionSort _).mpr hy
    have hsplit := List.take_append_drop limit
      (List.insertionSort (fun a b : ScoredRow => b.similarity ≤ a.similarity)
        (searchSurvivors dist db q kind? limit))
    rcases List.mem_append.mp (by rw [hsplit]; exact hysort) with hyt | hyd
    · left
      rw [hR]
      exact List.mem_map_of_mem toHit hyt
    · right
      intro x hx
      rw [hR] at hx
      rcases List.mem_map.mp hx with ⟨z, hz, hxz⟩
      have hp := (List.pairwise_append.mp (by rw [hsplit]; exact hsorted)).2.2
      have hzy := hp z hz y hyd
      rw [← hxz]
      exact hzy

/-- C4 witness: over `dbS` with `limit = 1`, three candidates are fetched, one
falls below the 0.3 threshold, and truncation bites — two survivors, one
returned, the dropped survivor ranking no higher. -/
theorem search_threshold_sort_truncate_witness :
    (searchRecords distS dbS [0] none none 1).length
      = min 1 (searchSurvivors distS dbS [0] none 1).length
    ∧ List.Pairwise (fun a b : SearchHit => b.similarity ≤ a.similarity)
        (searchRecords distS dbS [0] none none 1)
    ∧ (∀ x ∈ searchRecords distS dbS [0] none none 1, (3:ℚ)/10 ≤ x.similarity)
    ∧ (∀ x ∈ searchRecords distS dbS [0] none none 1,
        ∃ y ∈ searchSurvivors distS dbS [0] none 1, toHit y = x)
    ∧ ((searchSurvivors distS dbS [0] none 1).length ≤ 1 →
        (searchRecords distS dbS [0] none none 1).Perm
          ((searchSurvivors distS dbS [0] none 1).map toHit))
    ∧ (∀ y ∈ searchSurvivors distS dbS [0] none 1,
        toHit y ∈ searchRecords distS dbS [0] none none 1
        ∨ ∀ x ∈ searchRecords distS dbS [0] none none 1, y.similarity ≤ x.similarity) :=
  search_threshold_sort_truncate distS dbS [0] none none 1

/-! Claim C9. -/

theorem runMigrationsFrom_error {S : Type} (cur : Nat) (migs : List (Migration S)) :
    ∀ (db db1 : MigDb S) (e : String),
    migs.Pairwise (fun a b => a.version < b.version) →
    (∀ v ∈ db.versions, ∀ m ∈ migs, cur < m.version → v < m.version) →
    runMigrationsFrom cur migs db = (db1, some e) →
    ∃ pre, ∃ m, ∃ post, migs = pre ++ m :: post
      ∧ runMigrationsFrom cur pre db = (db1, none)
      ∧ cur < m.version
      ∧ migrationTx m db1 = Except.error e
      ∧ ∀ v ∈ db1.versions, v < m.version := by
  induction migs with
  | nil =>
    intro db db1 e _ _ h
    simp [runMigrationsFrom] at h
  | cons m0 rest ih =>
    intro db db1 e hpw hlo h
    simp only [runMigrationsFrom] at h
    have hpwrest := (List.pairwise_cons.mp hpw).2
    have hm0rest := (List.pairwise_cons.mp hpw).1
    by_cases hcur : cur < m0.version
    · rw [if_pos hcur] at h
      cases htx : migrationTx m0 db with
      | ok db2 =>
        rw [htx] at h
        have h' : runMigrationsFrom cur rest db2 = (db1, some e) := h
        have hdb2 : db2.versions = db.versions ++ [m0.version] := by
          unfold migrationTx at htx
          cases hup : m0.up db.schema with
          | ok s =>
            rw [hup] at htx
            have htx' : Except.ok (MigDb.mk s (db.versions ++ [m0.version]))
                = Except.ok db2 := htx
            injection htx' with htx2
            rw [← htx2]
          | error e2 =>
            rw [hup] at htx
            cases htx
        have hlo' : ∀ v ∈ db2.versions, ∀ m' ∈ rest, cur < m'.version → v < m'.version := by
          intro v hv m' hm' hc'
          rw [hdb2] at hv
          rcases List.mem_append.mp hv with hv | hv
          · exact hlo v hv m' (List.mem_cons_of_mem _ hm') hc'
          · have hvm : v = m0.version := by simpa using hv
            exact hvm ▸ hm0rest m' hm'
        rcases ih db2 db1 e hpwrest hlo' h' with ⟨pre, m, post, hsplit, hpre, h1, h2, h3⟩
        refine ⟨m0 :: pre, m, post, ?_, ?_, h1, h2, h3⟩
        · rw [hsplit]
          rfl
        · simp only [runMigrationsFrom]
          rw [if_pos hcur, htx]
          exact hpre
      | error e2 =>
        rw [htx] at h
        have h' : ((db, some e2) : MigDb S × Option String) = (db1, some e) := h
        injection h' with hdb he
        injection he with he
        refine ⟨[], m0, rest, rfl, ?_, hcur, ?_, ?_⟩
        · simp only [runMigrationsFrom]
          rw [hdb]
        · rw [← hdb, htx, he]
        · intro v hv
          rw [← hdb] at hv
          exact hlo v hv m0 (List.mem_cons_self m0 rest) hcur
    · rw [if_neg hcur] at h
      have hlo' : ∀ v ∈ db.versions, ∀ m' ∈ rest, cur < m'.version → v < m'.version :=
        fun v hv m' hm' hc' => hlo v hv m' (List.mem_cons_of_mem _ hm') hc'
      rcases ih db db1 e hpwrest hlo' h with ⟨pre, m, post, hsplit, hpre, h1, h2, h3⟩
      refine ⟨m0 :: pre, m, post, ?_, ?_, h1, h2, h3⟩
      · rw [hsplit]
        rfl
      · simp only [runMigrationsFrom]
        rw [if_neg hcur]
        exact hpre

/-- C9: a failing migration run decomposes as a successful prefix followed by
the failing migration: the returned state `db1` is *exactly* the state produced
by the successful prefix alone (`runMigrationsFrom cur pre db0 = (db1, none)`) —
full rollback, so the failing migration contributed neither schema changes nor
a version row.  Its transaction (schema upgrade plus version insert) fails as a
whole on `db1`, its upgrade function fails on the preserved schema, the stored
`MAX(version)` stays strictly below the failing migration's version (i.e. at
its pre-migration value, since `db1` is the pre-transaction state), and the
failing version row is absent. -/
theorem migration_failure_rolls_back {S : Type} (migs : List (Migration S))
    (db0 db1 : MigDb S) (e : String)
    (hpw : decide (migs.Pairwise (fun a b => a.version < b.version)) = true)
    (h : runMigrations migs db0 = (db1, some e)) :
    ∃ pre, ∃ m, ∃ post, migs = pre ++ m :: post
      ∧ runMigrationsFrom (maxVersion db0) pre db0 = (db1, none)
      ∧ maxVersion db0 < m.version
      ∧ migrationTx m db1 = Except.error e
      ∧ m.up db1.schema = Except.error e
      ∧ maxVersion db1 < m.version
      ∧ ¬ m.version ∈ db1.versions := by
  have hpw' : migs.Pairwise (fun a b => a.version < b.version) := of_decide_eq_true hpw
  have hlo : ∀ v ∈ db0.versions, ∀ m ∈ migs, maxVersion db0 < m.version → v < m.version := by
    intro v hv m _ hm
    have hle : v ≤ maxVersion db0 := le_foldr_max hv
    omega
  rcases runMigrationsFrom_error (maxVersion db0) migs db0 db1 e hpw' hlo h with
    ⟨pre, m, post, hsplit, hpre, h1, h2, h3⟩
  have hup : m.up db1.schema = Except.error e := by
    unfold migrationTx at h2
    cases hu : m.up db1.schema with
    | ok s =>
      rw [hu] at h2
      cases h2
    | error e3 =>
      rw [hu] at h2
      have h2' : (Except.error e3 : Except String (MigDb S)) = Except.error e := h2
      injection h2' with h4
      rw [h4]
  have h4 : maxVersion db1 < m.version := by
    unfold maxVersion
    exact foldr_max_lt (by omega) h3
  have h5 : ¬ m.version ∈ db1.versions :=
    fun hmem => absurd (h3 _ hmem) (lt_irrefl _)
  exact ⟨pre, m, post, hsplit, hpre, h1, h2, hup, h4, h5⟩

/-- C9 witness: version 2 applies, version 3 fails; the run ends at exactly the
state the successful prefix `[migOk]` alone produces — schema
`["table_v2", "table_v1"]`, version rows `[1, 2]` — with version 3's schema
change and version row both absent. -/
theorem migration_failure_rolls_back_witness :
    (decide (List.Pairwise (fun a b : Migration (List String) => a.version < b.version)
      [migOk, migBoom]) = true)
    ∧ (runMigrations [migOk, migBoom] migDb0
        = (⟨["table_v2", "table_v1"], [1, 2]⟩, some "boom"))
    ∧ (∃ pre, ∃ m, ∃ post,
        ([migOk, migBoom] : List (Migration (List String))) = pre ++ m :: post
        ∧ runMigrationsFrom (maxVersion migDb0) pre migDb0
          = (⟨["table_v2", "table_v1"], [1, 2]⟩, none)
        ∧ maxVersion migDb0 < m.version
        ∧ migrationTx m (MigDb.mk ["table_v2", "table_v1"] [1, 2]) = Except.error "boom"
        ∧ m.up (MigDb.mk ["table_v2", "table_v1"] [1, 2]).schema = Except.error "boom"
        ∧ maxVersion (MigDb.mk ["table_v2", "table_v1"] [1, 2]) < m.version
        ∧ ¬ m.version ∈ (MigDb.mk ["table_v2", "table_v1"] [1, 2]).versions) :=
  ⟨by decide, by decide,
   migration_failure_rolls_back [migOk, migBoom] migDb0 ⟨["table_v2", "table_v1"], [1, 2]⟩
     "boom" (by decide) (by decide)⟩

/-! Claim C3. -/

/-- C3: the dedup check can miss a same-project, same-kind neighbour within the
0.15 threshold.  In `dbC3` the nearest (indeed only) same-project `issue`
neighbour is record 6 at distance `1/10 ≤ 0.15`, yet the five foreign records
at distance `1/20` fill the global `k = 5` KNN result, the post-join filter
empties the candidate list, and the upsert creates record 7 instead of merging
into record 6. -/
theorem upsert_dedup_crowded_out :
    ((upsertRecord distC3 dbC3 "now" none none "issue" "t2" "b2" "open" [9]).2.map
      (fun o => o.1.id)) = some 7
    ∧ (upsertRecord distC3 dbC3 "now" none none "issue" "t2" "b2" "open" [9]).1.records.length
      = 7
    ∧ dbC3.records.length = 6
    ∧ dedupCandidates distC3 dbC3 [9] 1 "issue" = []
    ∧ (dbC3.records.filter (fun r => decide (r.project_id = 1 ∧ r.kind = "issue"))).map
        (fun r => r.id) = [6]
    ∧ distC3 [9] [6] = 1/10
    ∧ ((1:ℚ)/10 ≤ 15/100)
    ∧ (dbC3.embeddings.filter (fun e => decide (¬ e.1 = 6))).map (fun e => distC3 [9] e.2)
      = [1/20, 1/20, 1/20, 1/20, 1/20] := by decide

/-! Claim C6. -/

/-- C6: upserting near-identical payloads twice need not be idempotent.  The
first upsert into `dbC6` creates record 6; the second, whose embedding lies at
distance `1/100 ≤ 0.15` from record 6's, is crowded out of the global `k = 5`
KNN result by the five foreign vectors at distance `1/200`, so it creates
record 7 — two records for the same topic, and the second returned id differs
from the first. -/
theorem upsert_near_duplicate_not_idempotent :
    ((upsertRecord distC6 dbC6 "t1" none none "issue" "login crash" "" "open" [6]).2.map
      (fun o => o.1.id)) = some 6
    ∧ (((upsertRecord distC6
          (upsertRecord distC6 dbC6 "t1" none none "issue" "login crash" "" "open" [6]).1
          "t2" none none "issue" "login crash again" "" "open" [7]).2.map
        (fun o => o.1.id)) = some 7)
    ∧ (upsertRecord distC6
        (upsertRecord distC6 dbC6 "t1" none none "issue" "login crash" "" "open" [6]).1
        "t2" none none "issue" "login crash again" "" "open" [7]).1.records.length = 7
    ∧ ((upsertRecord distC6
        (upsertRecord distC6 dbC6 "t1" none none "issue" "login crash" "" "open" [6]).1
        "t2" none none "issue" "login crash again" "" "open" [7]).1.records.filter
        (fun r => decide (r.project_id = 1))).length = 2
    ∧ distC6 [7] [6] = 1/100
    ∧ ((1:ℚ)/100 ≤ 15/100) := by decide

end DudeDb
